import Mathlib

/-!
A shallow embedding of the control-plane lifecycle code in
`component/control/control_plane.go` (package `control`), together with
theorems about its teardown, construction, link-binding and serving loops.

External effects (netlink calls, eBPF map updates, listener accepts) are
represented by scripted results passed in as explicit inputs, so every
function here is a pure Lean function mirroring the Go control flow.
Machine integers are modelled as `Nat` with explicit `% 2 ^ w` where
overflow matters.
-/

/-- Error values are carried as their message strings (Go `error`,
represented by `err.Error()`); `none` stands for a `nil` error. -/
abbrev Err := String

/-- A contiguous-sublist check over lists: `pat` occurs inside `l`. -/
def listIsInfixOf (pat : List Char) : List Char → Bool
  | [] => pat.isEmpty
  | x :: xs => pat.isPrefixOf (x :: xs) || listIsInfixOf pat xs

/-- Go `strings.Contains s sub`: `sub` occurs as a contiguous substring of
`s` (checked over the character lists). -/
def goContains (s sub : String) : Bool :=
  listIsInfixOf sub.toList s.toList

/-! ## Teardown (`ControlPlane.Close`)

A registered teardown action (`deferFuncs` entry) is modelled by an
identifying tag plus its scripted result: `none` for a `nil` error,
`some m` for an error with message `m`. -/

/-- One entry of `ControlPlane.deferFuncs`: an identifying tag and the
result the closure returns when invoked. -/
structure Teardown where
  tag : Nat
  result : Option Err
deriving DecidableEq

/-- The error-combination step of `Close`:
`err = fmt.Errorf("%w; %v", err, e)` when both are non-nil, otherwise
keep the non-nil one. -/
def combineErr (acc e : Option Err) : Option Err :=
  match e with
  | none => acc
  | some m =>
    match acc with
    | none => some m
    | some a => some (a ++ "; " ++ m)

/-- The body of the `for i := len-1; i >= 0; i--` loop of `Close`, applied
to the already-reversed list: invoke each action in order, record its tag,
and fold its error into the accumulator. -/
def closeGo : List Teardown → Option Err → List Nat × Option Err
  | [], err => ([], err)
  | f :: rest, err =>
    let err2 := combineErr err f.result
    let r := closeGo rest err2
    (f.tag :: r.1, r.2)

/-- `ControlPlane.Close`: iterate `deferFuncs` from the last index down to
index 0 (embedded as a traversal of the reversed list), returning the
invocation order (as tags) and the combined error. -/
def Close (fs : List Teardown) : List Nat × Option Err :=
  closeGo fs.reverse none

/-- Joining of the non-nil error messages, in invocation order, with
the separator `Close` uses. -/
def joinErrs : List String → Option Err
  | [] => none
  | m :: ms => some (ms.foldl (fun acc x => acc ++ "; " ++ x) m)

/-- The messages of the failing teardown actions of a list, in order. -/
def failuresOf (fs : List Teardown) : List String :=
  fs.filterMap (fun f => f.result)

/-! ## Loading kernel objects with clear-and-retry (`retry_load` in `NewControlPlane`) -/

/-- Outcome of one `loadBpfObjects` attempt: success, a map-incompatibility
error (Go `ebpf.ErrMapIncompatible`) carrying its message, or any other
error. -/
inductive LoadResult
  | ok
  | incompatible (msg : String)
  | otherErr (msg : String)

/-- The characters after the first occurrence of `pat` in a list; `none`
when `pat` does not occur (Go `strings.Index` returning `-1`). -/
def afterFirst (pat : List Char) : List Char → Option (List Char)
  | [] => if pat.isPrefixOf ([] : List Char) then some [] else none
  | x :: xs =>
    if pat.isPrefixOf (x :: xs) then some ((x :: xs).drop pat.length)
    else afterFirst pat xs

/-- The characters before the first occurrence of `c` (the whole list when
`c` is absent): Go `strings.SplitN(s, c, 2)[0]`. -/
def takeUntil (c : Char) : List Char → List Char
  | [] => []
  | x :: xs => if x = c then [] else x :: takeUntil c xs

/-- The pinned-map-name extraction of the `retry_load` handler: find
`"use pinned map "` in the error message (`none` in the `iPrefix == -1`
bad-format case), then take `strings.SplitN(tail, ":", 2)[0]`. -/
def extractMapName (msg : String) : Option String :=
  (afterFirst "use pinned map ".toList msg.toList).map
    (fun suf => String.mk (takeUntil (Char.ofNat 58) suf))

/-- The `retry_load` loop of `NewControlPlane`, the scripted result of each
load attempt given by `loader` (applied to the attempt index).  The Go
code is an unguarded `goto retry_load`; the embedding adds explicit fuel
and returns `none` when the loop is still running after `fuel` attempts. -/
def loadLoop (loader : Nat → LoadResult) : Nat → Nat → Option (Except Err Unit)
  | _, 0 => none
  | attempt, fuel + 1 =>
    match loader attempt with
    | .ok => some (.ok ())
    | .incompatible msg =>
      match extractMapName msg with
      | none => some (.error ("loading objects: bad format: " ++ msg))
      | some _ => loadLoop loader (attempt + 1) fuel
    | .otherErr msg => some (.error ("loading objects: " ++ msg))

/-- A load that persistently fails with a map incompatibility naming a
pinned map, however often the stale pin is removed. -/
def persistentIncompatLoader : Nat → LoadResult :=
  fun _ => .incompatible "use pinned map tproxy_port: map spec is incompatible"

/-! ## The interception-layer parameter store (`bpf.ParamMap`) -/

/-- The parameter-store keys `NewControlPlane` and `ListenAndServe`
touch. -/
inductive ParamKey
  | disableL4Tx
  | disableL4Rx
  | epochKey
  | tproxyPort
deriving DecidableEq

/-- The key/value parameter store of the interception layer; values are
`uint32`, modelled as `Nat` kept below `2 ^ 32`. -/
abbrev Store := ParamKey → Option Nat

/-- A point update of the parameter store (`bpf.ParamMap.Update`). -/
def storeUpdate (s : Store) (k : ParamKey) (v : Nat) : Store :=
  fun q => if q = k then some v else s q

/-- Stands for `consts.DisableL4ChecksumPolicy_SetZero`; its concrete value
is defined outside this file and never inspected here. -/
def DisableL4ChecksumPolicy_SetZero : Nat := 1

/-! ## Outbound name-to-id table (`outboundName2Id`) -/

/-- Go map insert `m[k] = v`: a later insert overrides an earlier one. -/
def mapInsert (m : String → Option Nat) (k : String) (v : Nat) :
    String → Option Nat :=
  fun q => if q = k then some v else m q

/-- The `for i, o := range outbounds` loop writing `uint8(i)` (hence the
`% 256`) under each outbound name, starting at index `i`. -/
def name2IdLoop (m : String → Option Nat) (i : Nat) :
    List String → (String → Option Nat)
  | [] => m
  | n :: rest => name2IdLoop (mapInsert m n (i % 256)) (i + 1) rest

/-- `outboundName2Id` generated from the declared outbound names. -/
def name2IdMap (names : List String) : String → Option Nat :=
  name2IdLoop (fun _ => none) 0 names

/-! ## `NewControlPlane` -/

/-- Modelled from the spec: `routing.ApplyRulesOptimizers` (defined outside
this file) applies the given optimizers in order, each taking and returning
the rule set, stopping at the first failure. -/
def ApplyRulesOptimizers {R : Type} (rules : R) :
    List (R → Except Err R) → Except Err R
  | [] => .ok rules
  | o :: rest =>
    match o rules with
    | .error e => .error e
    | .ok r2 => ApplyRulesOptimizers r2 rest

/-- Scripted results of the external calls `NewControlPlane` makes, with
the rule-set type `R` abstract.  The four optimizer fields stand for
`RefineFunctionParamKeyOptimizer`, `DatReaderOptimizer`,
`MergeAndSortRulesOptimizer` and `DeduplicateParamsOptimizer`; the
outbound names stand for the `Name` fields of the constructed
`DialerGroup` list. -/
structure Externals (R : Type) where
  removeMemlockErr : Option Err
  loader : Nat → LoadResult
  updateTxErr : Option Err
  updateRxErr : Option Err
  updateEpochErr : Option Err
  parseResult : Except Err (R × String)
  refineOpt : R → Except Err R
  datOpt : R → Except Err R
  mergeOpt : R → Except Err R
  dedupOpt : R → Except Err R
  newFromLinkErr : Option Err
  outboundNames : List String
  applyMatcherErr : Option Err
  buildErr : Option Err

/-- The parts of the constructed `ControlPlane` value the claims are
about. -/
structure ControlPlaneM (R : Type) where
  rules : R
  final : String
  outboundName2Id : String → Option Nat
  epoch : Nat

/-- Everything `NewControlPlane` does after `loadBpfObjects` succeeded:
checksum-policy updates, the epoch read/increment/write (uint32, hence
`% 2 ^ 32`), routing parse and optimizer pipeline, dialer construction,
the 255-outbound cap and id table, and matcher building; threads the
parameter store. -/
def newControlPlaneAfterLoad {R : Type} (ext : Externals R) (pm : Store) :
    Except Err (ControlPlaneM R × Store) :=
  match ext.updateTxErr with
  | some e => .error e
  | none =>
    let pm1 := storeUpdate pm .disableL4Tx DisableL4ChecksumPolicy_SetZero
    match ext.updateRxErr with
    | some e => .error e
    | none =>
      let pm2 := storeUpdate pm1 .disableL4Rx DisableL4ChecksumPolicy_SetZero
      let epoch0 := (pm2 .epochKey).getD 0
      let epoch := (epoch0 + 1) % 2 ^ 32
      match ext.updateEpochErr with
      | some e => .error e
      | none =>
        let pm3 := storeUpdate pm2 .epochKey epoch
        match ext.parseResult with
        | .error e => .error ("routingA error: \n " ++ e)
        | .ok (rules0, final) =>
          match ApplyRulesOptimizers rules0
              [ext.refineOpt, ext.datOpt, ext.mergeOpt, ext.dedupOpt] with
          | .error e => .error ("ApplyRulesOptimizers error: \n " ++ e)
          | .ok rules =>
            match ext.newFromLinkErr with
            | some e => .error e
            | none =>
              if 255 < ext.outboundNames.length then .error "too many outbounds"
              else
                let n2id := name2IdMap ext.outboundNames
                match ext.applyMatcherErr with
                | some e => .error ("ApplyMatcherBuilder: " ++ e)
                | none =>
                  match ext.buildErr with
                  | some e => .error ("RoutingMatcherBuilder.Build: " ++ e)
                  | none => .ok (⟨rules, final, n2id, epoch⟩, pm3)

/-- `NewControlPlane`: memlock removal, the `retry_load` loop (with fuel:
`none` when the goto loop is still running), then the rest of the
constructor. -/
def NewControlPlane {R : Type} (ext : Externals R) (pm : Store) (fuel : Nat) :
    Option (Except Err (ControlPlaneM R × Store)) :=
  match ext.removeMemlockErr with
  | some e => some (.error ("rlimit.RemoveMemlock:" ++ e))
  | none =>
    match loadLoop ext.loader 0 fuel with
    | none => none
    | some (.error e) => some (.error e)
    | some (.ok _) => some (newControlPlaneAfterLoad ext pm)

/-! ## `BindLink` -/

/-- An interface address as `BindLink` observes it (a `netip.Addr` obtained
from an interface address slice): family (4-byte IPv4 or 16-byte IPv6
form), link-local classification, and its 16-byte normalized `As16`
form. -/
structure NetAddr where
  is4 : Bool
  linkLocalUnicast : Bool
  linkLocalMulticast : Bool
  as16 : List Nat
deriving DecidableEq

/-- The per-interface address record `bpfIfIp`: up to one IPv4 and one IPv6
address with presence flags, each kept in the 16-byte normalized form (the
Go code stores the bytes of `ip.As16()` repacked as four `uint32`). -/
structure BpfIfIp where
  hasIp4 : Bool
  hasIp6 : Bool
  ip4 : List Nat
  ip6 : List Nat
deriving DecidableEq

def zeros16 : List Nat := List.replicate 16 0

/-- The Go zero value of `bpfIfIp`. -/
def bpfIfIpZero : BpfIfIp := ⟨false, false, zeros16, zeros16⟩

/-- The `for _, ipnet := range ipnets` loop of `BindLink` computing the
interface address record; a `none` entry is a slice rejected by
`netip.AddrFromSlice`.  Mirrors the source: skip link-local addresses,
skip an address whose family slot is already filled, store `As16` and set
the presence flag otherwise, and stop early once both slots are filled. -/
def computeLinkIpGo : List (Option NetAddr) → BpfIfIp → BpfIfIp
  | [], s => s
  | none :: rest, s => computeLinkIpGo rest s
  | some a :: rest, s =>
    if a.linkLocalUnicast || a.linkLocalMulticast then
      computeLinkIpGo rest s
    else if (!a.is4 && s.hasIp6) || (a.is4 && s.hasIp4) then
      computeLinkIpGo rest s
    else
      let s2 := if a.is4 then { s with hasIp4 := true, ip4 := a.as16 }
        else { s with hasIp6 := true, ip6 := a.as16 }
      if s2.hasIp4 && s2.hasIp6 then s2 else computeLinkIpGo rest s2

/-- The addresses of one family (IPv4 when `fam4`) that the loop considers
eligible: parseable and not link-local. -/
def eligibleAddrs (fam4 : Bool) (addrs : List (Option NetAddr)) : List NetAddr :=
  (addrs.filterMap id).filter
    (fun a => a.is4 == fam4 && !(a.linkLocalUnicast || a.linkLocalMulticast))

/-- The external resources `BindLink` installs on a link. -/
inductive NetResource
  | clsactQdisc
  | ingressFilter
  | egressFilter
deriving DecidableEq

/-- A teardown closure `BindLink` appends to `deferFuncs`: deletion of the
qdisc, or `netlink.FilterDel` of the filter object the closure captured. -/
inductive NetTeardown
  | delQdisc
  | delFilter (target : NetResource)
deriving DecidableEq

/-- The resource a teardown closure releases when invoked. -/
def releasedBy : NetTeardown → NetResource
  | .delQdisc => .clsactQdisc
  | .delFilter r => r

/-- Result of the first `netlink.QdiscAdd` call: success, an
already-exists error (the `os.IsExist` branch), or another failure. -/
inductive QdiscAddResult
  | ok
  | alreadyExists
  | failed (msg : String)

/-- Scripted results of the external calls `BindLink` makes. -/
structure BindLinkExt where
  linkErr : Option Err
  addrsErr : Option Err
  addrs : List (Option NetAddr)
  updateMapErr : Option Err
  qdiscAddFirst : QdiscAddResult
  qdiscAddSecond : Option Err
  filterIngressErr : Option Err
  filterEgressErr : Option Err

/-- Observable outcome of `BindLink`: its returned error (`none` for
`nil`), the address record written into `IfindexIpMap` (if that update
ran and succeeded), the resources installed, and the teardown closures
appended to `deferFuncs`, in order. -/
structure BindLinkOut where
  err : Option Err
  written : Option BpfIfIp
  installed : List NetResource
  teardowns : List NetTeardown

/-- The qdisc installation step: on an already-exists error the qdisc is
deleted and added again; any remaining error aborts `BindLink`. -/
def qdiscStep (ext : BindLinkExt) : Option Err :=
  match ext.qdiscAddFirst with
  | .ok => none
  | .alreadyExists => ext.qdiscAddSecond.map (fun e => "cannot add clsact qdisc: " ++ e)
  | .failed e => some ("cannot add clsact qdisc: " ++ e)

/-- `ControlPlane.BindLink`: look up the link, list its addresses, reject
an address-less interface, compute and write the address record, install
the clsact qdisc and the ingress and egress BPF filters, appending a
teardown closure after each successful installation.  Faithful to the
source, the closure appended after installing the egress filter deletes
`filter` — the ingress filter object — not `filterEgress`. -/
def BindLink (ifname : String) (ext : BindLinkExt) : BindLinkOut :=
  match ext.linkErr with
  | some e => ⟨some e, none, [], []⟩
  | none =>
  match ext.addrsErr with
  | some e => ⟨some e, none, [], []⟩
  | none =>
  if ext.addrs.length = 0 then
    ⟨some ("interface " ++ ifname ++ " has no ip"), none, [], []⟩
  else
    let linkIp := computeLinkIpGo ext.addrs bpfIfIpZero
    match ext.updateMapErr with
    | some e => ⟨some ("update IfindexIpsMap: " ++ e), none, [], []⟩
    | none =>
    match qdiscStep ext with
    | some e => ⟨some e, some linkIp, [], []⟩
    | none =>
    match ext.filterIngressErr with
    | some e =>
      ⟨some ("cannot attach ebpf object to filter ingress: " ++ e), some linkIp,
        [.clsactQdisc], [.delQdisc]⟩
    | none =>
    match ext.filterEgressErr with
    | some e =>
      ⟨some ("cannot attach ebpf object to filter ingress: " ++ e), some linkIp,
        [.clsactQdisc, .ingressFilter], [.delQdisc, .delFilter .ingressFilter]⟩
    | none =>
      ⟨none, some linkIp,
        [.clsactQdisc, .ingressFilter, .egressFilter],
        [.delQdisc, .delFilter .ingressFilter, .delFilter .ingressFilter]⟩

/-! ## `ListenAndServe` -/

/-- The substring the accept loops look for to recognize a closed-listener
error produced by a normal shutdown. -/
def closedConnMsg : String := "use of closed network connection"

/-- One event of the stream accept loop: an accepted connection, or an
`Accept` error with its message. -/
inductive AcceptEvent (C : Type)
  | conn (c : C)
  | acceptErr (msg : String)

/-- Observable outcome of the stream accept loop: connections handed to
`handleConn` in order, messages logged at error level, and whether the
loop terminated (via `break`) before the script ran out. -/
structure TcpLoopOut (C : Type) where
  handled : List C
  errLogged : List String
  stopped : Bool

/-- The stream accept loop of `ListenAndServe`: each accepted connection is
handed to `handleConn`; an accept error breaks the loop, and is logged
unless its message contains the closed-listener text. -/
def tcpLoop {C : Type} : List (AcceptEvent C) → TcpLoopOut C
  | [] => ⟨[], [], false⟩
  | .conn c :: rest =>
    let r := tcpLoop rest
    ⟨c :: r.handled, r.errLogged, r.stopped⟩
  | .acceptErr m :: _ =>
    ⟨[], if goContains m closedConnMsg then [] else [m], true⟩

/-- One event of the datagram loop: a received packet (its bytes), or a
`ReadFromUDPAddrPort` error with its message. -/
inductive UdpEvent
  | pkt (data : List Nat)
  | readErr (msg : String)

/-- Observable outcome of the datagram loop: the (header, payload) pairs
handed to `handlePkt` in order, warning messages, error-level messages,
and whether the loop terminated before the script ran out. -/
structure UdpLoopOut (H : Type) where
  handled : List (H × List Nat)
  warnLogged : List String
  errLogged : List String
  stopped : Bool

/-- The datagram accept loop of `ListenAndServe`, parameterized by the
header parser: a read error breaks the loop (logged unless it is the
closed-listener message); a packet whose header fails to parse is dropped
with a warning and the loop continues; a parsed packet is handed to
`handlePkt` with the bytes from the parsed data offset on
(`buf[dataOffset:n]`). -/
def udpLoop {H : Type} (parse : List Nat → Option (H × Nat)) :
    List UdpEvent → UdpLoopOut H
  | [] => ⟨[], [], [], false⟩
  | .pkt d :: rest =>
    match parse d with
    | none =>
      let r := udpLoop parse rest
      ⟨r.handled, "No AddrPort presented" :: r.warnLogged, r.errLogged, r.stopped⟩
    | some (h, off) =>
      let r := udpLoop parse rest
      ⟨(h, d.drop off) :: r.handled, r.warnLogged, r.errLogged, r.stopped⟩
  | .readErr m :: _ =>
    ⟨[], [], if goContains m closedConnMsg then [] else [m], true⟩

/-- A parsed original-destination header: address family, address bytes,
port. -/
structure AddrHdrM where
  family : Nat
  addr : List Nat
  port : Nat
deriving DecidableEq

/-- Modelled from the spec: `ParseAddrHdr` (defined outside this file)
parses the original-destination header from the front of a packet — family
discriminant first, then a fixed-size address (4 bytes for IPv4, 16 for
IPv6), then a 16-bit port; header length 7 for IPv4 and 19 for IPv6.  It
fails when the family field is invalid or the declared length exceeds the
available bytes, and otherwise also returns the data offset. -/
def ParseAddrHdr (buf : List Nat) : Option (AddrHdrM × Nat) :=
  match buf with
  | [] => none
  | fam :: rest =>
    if fam = 4 then
      if 7 ≤ buf.length then
        some (⟨4, rest.take 4, (rest.getD 4 0) * 256 + rest.getD 5 0⟩, 7)
      else none
    else if fam = 6 then
      if 19 ≤ buf.length then
        some (⟨6, rest.take 16, (rest.getD 16 0) * 256 + rest.getD 17 0⟩, 19)
      else none
    else none

/-- Modelled from the spec: `swap16` (defined outside this file) mirrors
the listening port into the store in big-endian byte order. -/
def swap16 (p : Nat) : Nat := (p % 256) * 256 + (p / 256) % 256

/-- Scripted inputs of `ListenAndServe`: results of the two listener
bindings and of the port write, plus the event scripts both loops
consume and the header parser the datagram loop uses. -/
structure ServeExt (C H : Type) where
  listenTcpErr : Option Err
  listenUdpErr : Option Err
  updatePortErr : Option Err
  tcpEvents : List (AcceptEvent C)
  udpEvents : List UdpEvent
  parseHdr : List Nat → Option (H × Nat)

/-- `ControlPlane.ListenAndServe`: bind the stream listener, bind the
datagram listener, mirror the port into the parameter store, run both
accept loops, and — once setup succeeded — return `nil` regardless of how
the loops ended (`<-ctx.Done()` then `return nil`). -/
def ListenAndServe {C H : Type} (ext : ServeExt C H) (pm : Store)
    (port : Nat) : Except Err (TcpLoopOut C × UdpLoopOut H × Store) :=
  match ext.listenTcpErr with
  | some e => .error ("listenTCP: " ++ e)
  | none =>
  match ext.listenUdpErr with
  | some e => .error ("listenUDP: " ++ e)
  | none =>
  match ext.updatePortErr with
  | some e => .error e
  | none =>
    let pm1 := storeUpdate pm .tproxyPort (swap16 (port % 2 ^ 16))
    .ok (tcpLoop ext.tcpEvents, udpLoop ext.parseHdr ext.udpEvents, pm1)

/-! ## Concrete inputs used by witnesses and counterexamples -/

/-- Externals where every scripted step succeeds; rule sets are plain
naturals. -/
def extAllOk : Externals Nat :=
  { removeMemlockErr := none
    loader := fun _ => .ok
    updateTxErr := none
    updateRxErr := none
    updateEpochErr := none
    parseResult := .ok (100, "direct")
    refineOpt := fun r => .ok (r + 1)
    datOpt := fun r => .ok (r + 2)
    mergeOpt := fun r => .ok (r + 3)
    dedupOpt := fun r => .ok (r + 4)
    newFromLinkErr := none
    outboundNames := ["direct", "proxy"]
    applyMatcherErr := none
    buildErr := none }

/-- Like `extAllOk` but the routing parse fails. -/
def extParseErr : Externals Nat :=
  { extAllOk with parseResult := .error "syntax" }

/-- Like `extAllOk` but the merge-and-sort optimizer fails. -/
def extMergeErr : Externals Nat :=
  { extAllOk with mergeOpt := fun _ => .error "merge" }

/-- Like `extAllOk` but with 256 declared outbounds. -/
def extTooMany : Externals Nat :=
  { extAllOk with outboundNames := List.replicate 256 "x" }

/-- A store holding only the epoch, with value `e`. -/
def pmEpoch (e : Nat) : Store :=
  fun k => if k = ParamKey.epochKey then some e else none

/-- A concrete IPv4 interface address (192.168.1.2) in `As16` form. -/
def addr4a : NetAddr :=
  ⟨true, false, false, [0, 0, 0, 0, 0, 0, 0, 0, 0, 0, 255, 255, 192, 168, 1, 2]⟩

/-- A concrete IPv6 interface address (2001:db8::1) in `As16` form. -/
def addr6a : NetAddr :=
  ⟨false, false, false, [32, 1, 13, 184, 0, 0, 0, 0, 0, 0, 0, 0, 0, 0, 0, 1]⟩

/-- `BindLink` externals where every netlink and map call succeeds. -/
def bindOkExt : BindLinkExt :=
  { linkErr := none
    addrsErr := none
    addrs := [some addr4a, some addr6a]
    updateMapErr := none
    qdiscAddFirst := .ok
    qdiscAddSecond := none
    filterIngressErr := none
    filterEgressErr := none }

theorem closeGo_fst (l : List Teardown) (e : Option Err) :
    (closeGo l e).1 = l.map (fun f => f.tag) := by
  induction l generalizing e with
  | nil => rfl
  | cons f rest ih => simp [closeGo, ih]

theorem closeGo_snd (l : List Teardown) (e : Option Err) :
    (closeGo l e).2 = l.foldl (fun acc f => combineErr acc f.result) e := by
  induction l generalizing e with
  | nil => rfl
  | cons f rest ih => simp [closeGo, ih]

theorem combineErr_none_right (a : Option Err) : combineErr a none = a := rfl

theorem combineErr_none_some (m : Err) : combineErr none (some m) = some m := rfl

theorem combineErr_some_some (a m : Err) :
    combineErr (some a) (some m) = some (a ++ "; " ++ m) := rfl

theorem foldl_combine_some (l : List Teardown) (a : String) :
    l.foldl (fun acc f => combineErr acc f.result) (some a)
      = some ((failuresOf l).foldl (fun acc x => acc ++ "; " ++ x) a) := by
  induction l generalizing a with
  | nil => rfl
  | cons f rest ih =>
    rw [List.foldl_cons]
    cases hres : f.result with
    | none =>
      rw [combineErr_none_right, ih]
      simp [failuresOf, hres]
    | some m =>
      rw [combineErr_some_some, ih]
      simp [failuresOf, hres]

theorem foldl_combine_none (l : List Teardown) :
    l.foldl (fun acc f => combineErr acc f.result) none
      = joinErrs (failuresOf l) := by
  induction l with
  | nil => rfl
  | cons f rest ih =>
    rw [List.foldl_cons]
    cases hres : f.result with
    | none =>
      rw [combineErr_none_right, ih]
      simp [failuresOf, hres]
    | some m =>
      rw [combineErr_none_some, foldl_combine_some]
      simp [failuresOf, joinErrs, hres]

/-- C1: `Close` invokes every registered teardown action exactly once, in
strict reverse order of registration; failures never stop the remaining
actions from being invoked (the invocation trace is always the full
reversed list), the returned error is the combination of all failure
messages in invocation order, and when no action fails `Close` returns
`nil`. -/
theorem close_reverse_all_and_aggregates (fs : List Teardown) :
    (Close fs).1 = (fs.map (fun f => f.tag)).reverse
      ∧ (Close fs).2 = joinErrs (failuresOf fs.reverse)
      ∧ ((∀ f ∈ fs, f.result = none) → (Close fs).2 = none) := by
  refine ⟨?_, ?_, ?_⟩
  · rw [Close, closeGo_fst, List.map_reverse]
  · rw [Close, closeGo_snd, foldl_combine_none]
  · intro hall
    rw [Close, closeGo_snd, foldl_combine_none]
    have hnil : failuresOf fs.reverse = [] := by
      apply List.filterMap_eq_nil_iff.mpr
      intro f hf
      exact hall f (List.mem_reverse.mp hf)
    rw [hnil]
    rfl

/-- Witness for C1 at a concrete teardown list: actions tagged 1,2,3 with
the middle one failing are invoked as 3,2,1 and the two failures are
combined. -/
theorem close_reverse_all_and_aggregates_witness :
    (Close [⟨1, some "a"⟩, ⟨2, none⟩, ⟨3, some "c"⟩]).1 = [3, 2, 1]
      ∧ (Close [⟨1, some "a"⟩, ⟨2, none⟩, ⟨3, some "c"⟩]).2 = some ("c" ++ "; " ++ "a") := by
  have h := close_reverse_all_and_aggregates [⟨1, some "a"⟩, ⟨2, none⟩, ⟨3, some "c"⟩]
  exact ⟨h.1, by rw [h.2.1]; rfl⟩

theorem loadLoop_persistent_aux (loader : Nat → LoadResult)
    (h : ∀ n, ∃ m, loader n = LoadResult.incompatible m
        ∧ (extractMapName m).isSome = true) :
    ∀ fuel attempt, loadLoop loader attempt fuel = none := by
  intro fuel
  induction fuel with
  | zero => intro attempt; rfl
  | succ k ih =>
    intro attempt
    obtain ⟨m, hm, hname⟩ := h attempt
    obtain ⟨nm, hnm⟩ := Option.isSome_iff_exists.mp hname
    simp only [loadLoop, hm, hnm]
    exact ih (attempt + 1)

theorem persistentIncompatLoader_shape (n : Nat) :
    ∃ m, persistentIncompatLoader n = LoadResult.incompatible m
      ∧ (extractMapName m).isSome = true :=
  ⟨"use pinned map tproxy_port: map spec is incompatible", rfl, by decide⟩

/-- C6 counterexample: against a load that persistently fails with a map
incompatibility naming a pinned map, the `goto retry_load` loop of
`NewControlPlane` is not capped at one retry — after the first
clear-and-retry it retries again instead of surfacing a fatal error — and
indeed never terminates, for any amount of fuel. -/
theorem load_retry_not_bounded :
    loadLoop persistentIncompatLoader 0 2 = none
      ∧ (∀ fuel, loadLoop persistentIncompatLoader 0 fuel = none)
      ∧ (∀ fuel pm,
          NewControlPlane (Externals.mk none persistentIncompatLoader none none
            none (Except.ok ((0 : Nat), "direct")) Except.ok Except.ok Except.ok
            Except.ok none ["direct", "proxy"] none none) pm fuel = none) := by
  have h := loadLoop_persistent_aux persistentIncompatLoader
    persistentIncompatLoader_shape
  refine ⟨h 2 0, fun fuel => h fuel 0, fun fuel pm => ?_⟩
  simp only [NewControlPlane, h fuel 0]

/-- C6 amended: when a load attempt fails with a map incompatibility whose
message names a pinned map, `NewControlPlane` removes the stale pin and
retries, but the retry is unbounded — on persistent incompatibility the
constructor never terminates; a fatal error is surfaced only when the load
error is not a map incompatibility, or is one whose message does not
contain the pinned-map marker. -/
theorem load_retry_clear_and_retry_unbounded (loader : Nat → LoadResult) :
    ((∀ n, ∃ m, loader n = LoadResult.incompatible m
        ∧ (extractMapName m).isSome = true) →
      ∀ fuel attempt, loadLoop loader attempt fuel = none)
    ∧ (∀ attempt m fuel, loader attempt = LoadResult.incompatible m →
        (extractMapName m).isSome = true →
        loadLoop loader attempt (fuel + 1) = loadLoop loader (attempt + 1) fuel)
    ∧ (∀ attempt m fuel, loader attempt = LoadResult.incompatible m →
        extractMapName m = none →
        loadLoop loader attempt (fuel + 1)
          = some (Except.error ("loading objects: bad format: " ++ m)))
    ∧ (∀ attempt m fuel, loader attempt = LoadResult.otherErr m →
        loadLoop loader attempt (fuel + 1)
          = some (Except.error ("loading objects: " ++ m))) := by
  refine ⟨loadLoop_persistent_aux loader, ?_, ?_, ?_⟩
  · intro attempt m fuel hm hname
    obtain ⟨nm, hnm⟩ := Option.isSome_iff_exists.mp hname
    simp only [loadLoop, hm, hnm]
  · intro attempt m fuel hm hnone
    simp only [loadLoop, hm, hnone]
  · intro attempt m fuel hm
    simp only [loadLoop, hm]

/-- Witness for the amended C6 at concrete inputs: the persistent
incompatibility never terminates at fuel 5; a well-formed incompatibility
steps to a retry; a malformed incompatibility and a plain failure surface
fatal errors at once. -/
theorem load_retry_clear_and_retry_unbounded_witness :
    loadLoop persistentIncompatLoader 0 5 = none
      ∧ loadLoop persistentIncompatLoader 0 1 = loadLoop persistentIncompatLoader 1 0
      ∧ loadLoop (fun _ => LoadResult.incompatible "weird") 0 3
          = some (Except.error ("loading objects: bad format: " ++ "weird"))
      ∧ loadLoop (fun _ => LoadResult.otherErr "EPERM") 0 3
          = some (Except.error ("loading objects: " ++ "EPERM")) := by
  refine ⟨(load_retry_clear_and_retry_unbounded persistentIncompatLoader).1
      persistentIncompatLoader_shape 5 0,
    (load_retry_clear_and_retry_unbounded persistentIncompatLoader).2.1 0
      "use pinned map tproxy_port: map spec is incompatible" 0 rfl (by decide),
    (load_retry_clear_and_retry_unbounded (fun _ => LoadResult.incompatible "weird")).2.2.1
      0 "weird" 2 rfl (by decide),
    (load_retry_clear_and_retry_unbounded (fun _ => LoadResult.otherErr "EPERM")).2.2.2
      0 "EPERM" 2 rfl⟩

theorem newControlPlane_ok_inv {R : Type} (ext : Externals R) (pm : Store)
    (fuel : Nat) (cp : ControlPlaneM R) (pm2 : Store)
    (h : NewControlPlane ext pm fuel = some (Except.ok (cp, pm2))) :
    ext.removeMemlockErr = none
      ∧ loadLoop ext.loader 0 fuel = some (Except.ok ())
      ∧ newControlPlaneAfterLoad ext pm = Except.ok (cp, pm2) := by
  cases hmem : ext.removeMemlockErr with
  | some e => simp [NewControlPlane, hmem] at h
  | none =>
    cases hl : loadLoop ext.loader 0 fuel with
    | none => simp [NewControlPlane, hmem, hl] at h
    | some r =>
      cases r with
      | error e => simp [NewControlPlane, hmem, hl] at h
      | ok u =>
        cases u
        simp only [NewControlPlane, hmem, hl, Option.some.injEq] at h
        exact ⟨rfl, rfl, h⟩

theorem newControlPlaneAfterLoad_ok_inv {R : Type} (ext : Externals R)
    (pm : Store) (cp : ControlPlaneM R) (pm2 : Store)
    (h : newControlPlaneAfterLoad ext pm = Except.ok (cp, pm2)) :
    ∃ r0 f, ext.parseResult = Except.ok (r0, f)
      ∧ ApplyRulesOptimizers r0
          [ext.refineOpt, ext.datOpt, ext.mergeOpt, ext.dedupOpt]
          = Except.ok cp.rules
      ∧ cp.final = f
      ∧ ext.outboundNames.length ≤ 255
      ∧ cp.outboundName2Id = name2IdMap ext.outboundNames
      ∧ cp.epoch = ((pm ParamKey.epochKey).getD 0 + 1) % 2 ^ 32
      ∧ pm2 ParamKey.epochKey
          = some (((pm ParamKey.epochKey).getD 0 + 1) % 2 ^ 32) := by
  cases htx : ext.updateTxErr with
  | some e => simp [newControlPlaneAfterLoad, htx] at h
  | none =>
  cases hrx : ext.updateRxErr with
  | some e => simp [newControlPlaneAfterLoad, htx, hrx] at h
  | none =>
  cases hep : ext.updateEpochErr with
  | some e => simp [newControlPlaneAfterLoad, htx, hrx, hep] at h
  | none =>
  cases hpr : ext.parseResult with
  | error e => simp [newControlPlaneAfterLoad, htx, hrx, hep, hpr] at h
  | ok rf =>
  obtain ⟨r0, f⟩ := rf
  cases hopt : ApplyRulesOptimizers r0
      [ext.refineOpt, ext.datOpt, ext.mergeOpt, ext.dedupOpt] with
  | error e => simp [newControlPlaneAfterLoad, htx, hrx, hep, hpr, hopt] at h
  | ok r1 =>
  cases hdl : ext.newFromLinkErr with
  | some e => simp [newControlPlaneAfterLoad, htx, hrx, hep, hpr, hopt, hdl] at h
  | none =>
  by_cases hlen : 255 < ext.outboundNames.length
  · simp [newControlPlaneAfterLoad, htx, hrx, hep, hpr, hopt, hdl, hlen] at h
  · cases hmb : ext.applyMatcherErr with
    | some e =>
      simp [newControlPlaneAfterLoad, htx, hrx, hep, hpr, hopt, hdl, hlen, hmb] at h
    | none =>
    cases hbd : ext.buildErr with
    | some e =>
      simp [newControlPlaneAfterLoad, htx, hrx, hep, hpr, hopt, hdl, hlen, hmb,
        hbd] at h
    | none =>
      have hkey : storeUpdate (storeUpdate pm ParamKey.disableL4Tx
            DisableL4ChecksumPolicy_SetZero) ParamKey.disableL4Rx
            DisableL4ChecksumPolicy_SetZero ParamKey.epochKey
          = pm ParamKey.epochKey := by
        simp [storeUpdate]
      simp only [newControlPlaneAfterLoad, htx, hrx, hep, hpr, hopt, hdl,
        if_neg hlen, hmb, hbd, hkey, Except.ok.injEq, Prod.mk.injEq] at h
      obtain ⟨hcp, hpm⟩ := h
      refine ⟨r0, f, rfl, ?_, ?_, by omega, ?_, ?_, ?_⟩
      · rw [← hcp]; exact hopt
      · rw [← hcp]
      · rw [← hcp]
      · rw [← hcp]
      · rw [← hpm]
        simp [storeUpdate]

theorem applyRulesOptimizers_chain {R : Type} (ext : Externals R) (r : R) :
    ApplyRulesOptimizers r [ext.refineOpt, ext.datOpt, ext.mergeOpt, ext.dedupOpt]
      = Except.bind (Except.bind (Except.bind (ext.refineOpt r) ext.datOpt)
          ext.mergeOpt) ext.dedupOpt := by
  cases h1 : ext.refineOpt r with
  | error e => simp [ApplyRulesOptimizers, Except.bind, h1]
  | ok r1 =>
    cases h2 : ext.datOpt r1 with
    | error e => simp [ApplyRulesOptimizers, Except.bind, h1, h2]
    | ok r2 =>
      cases h3 : ext.mergeOpt r2 with
      | error e => simp [ApplyRulesOptimizers, Except.bind, h1, h2, h3]
      | ok r3 =>
        cases h4 : ext.dedupOpt r3 with
        | error e => simp [ApplyRulesOptimizers, Except.bind, h1, h2, h3, h4]
        | ok r4 => simp [ApplyRulesOptimizers, Except.bind, h1, h2, h3, h4]

/-- C2: the routing-policy stage of `NewControlPlane` applies Parse first
and then the four optimizers in exactly the declared order — key
refinement, external-data resolution, merge-and-sort, deduplication (the
optimizer pipeline equals the sequential bind in that order) — and when
Parse or any optimizer fails, `NewControlPlane` returns an error (wrapping
the failure) and produces no control plane; a produced control plane
always carries the output of the full pipeline. -/
theorem newControlPlane_policy_pipeline {R : Type} (ext : Externals R)
    (pm : Store) (fuel : Nat)
    (hmem : ext.removeMemlockErr = none)
    (hload : loadLoop ext.loader 0 fuel = some (Except.ok ()))
    (htx : ext.updateTxErr = none) (hrx : ext.updateRxErr = none)
    (hep : ext.updateEpochErr = none) :
    (∀ r : R, ApplyRulesOptimizers r
        [ext.refineOpt, ext.datOpt, ext.mergeOpt, ext.dedupOpt]
      = Except.bind (Except.bind (Except.bind (ext.refineOpt r) ext.datOpt)
          ext.mergeOpt) ext.dedupOpt)
    ∧ (∀ e, ext.parseResult = Except.error e →
        NewControlPlane ext pm fuel
          = some (Except.error ("routingA error: \n " ++ e)))
    ∧ (∀ r0 f e, ext.parseResult = Except.ok (r0, f) →
        ApplyRulesOptimizers r0
            [ext.refineOpt, ext.datOpt, ext.mergeOpt, ext.dedupOpt]
          = Except.error e →
        NewControlPlane ext pm fuel
          = some (Except.error ("ApplyRulesOptimizers error: \n " ++ e)))
    ∧ (∀ cp pm2, NewControlPlane ext pm fuel = some (Except.ok (cp, pm2)) →
        ∃ r0 f, ext.parseResult = Except.ok (r0, f)
          ∧ ApplyRulesOptimizers r0
              [ext.refineOpt, ext.datOpt, ext.mergeOpt, ext.dedupOpt]
            = Except.ok cp.rules
          ∧ cp.final = f) := by
  refine ⟨applyRulesOptimizers_chain ext, ?_, ?_, ?_⟩
  · intro e hpe
    simp [NewControlPlane, hmem, hload, newControlPlaneAfterLoad, htx, hrx,
      hep, hpe]
  · intro r0 f e hpr hoe
    simp [NewControlPlane, hmem, hload, newControlPlaneAfterLoad, htx, hrx,
      hep, hpr, hoe]
  · intro cp pm2 h
    obtain ⟨-, -, h3⟩ := newControlPlane_ok_inv ext pm fuel cp pm2 h
    obtain ⟨r0, f, hpr, hopt, hfin, -⟩ :=
      newControlPlaneAfterLoad_ok_inv ext pm cp pm2 h3
    exact ⟨r0, f, hpr, hopt, hfin⟩

/-- Witness for C2: with a failing parse the constructor surfaces the
wrapped parse error; with a failing merge-and-sort optimizer it surfaces
the wrapped optimizer error. -/
theorem newControlPlane_policy_pipeline_witness :
    NewControlPlane extParseErr (pmEpoch 0) 1
        = some (Except.error ("routingA error: \n " ++ "syntax"))
      ∧ NewControlPlane extMergeErr (pmEpoch 0) 1
        = some (Except.error ("ApplyRulesOptimizers error: \n " ++ "merge")) :=
  ⟨(newControlPlane_policy_pipeline extParseErr (pmEpoch 0) 1 rfl rfl rfl rfl
      rfl).2.1 "syntax" rfl,
    (newControlPlane_policy_pipeline extMergeErr (pmEpoch 0) 1 rfl rfl rfl rfl
      rfl).2.2.1 100 "direct" "merge" rfl rfl⟩

theorem name2IdLoop_not_mem (names : List String) (k : String) :
    k ∉ names → ∀ m i, name2IdLoop m i names k = m k := by
  induction names with
  | nil => intro _ m i; rfl
  | cons n rest ih =>
    intro hk m i
    have hkn : k ≠ n := by
      intro hh
      exact hk (hh ▸ List.mem_cons_self n rest)
    have hkr : k ∉ rest := fun hh => hk (List.mem_cons_of_mem n hh)
    have hstep : name2IdLoop m i (n :: rest) k
        = name2IdLoop (mapInsert m n (i % 256)) (i + 1) rest k := rfl
    rw [hstep, ih hkr]
    simp [mapInsert, hkn]

theorem name2IdLoop_get (names : List String) :
    names.Nodup → ∀ (m : String → Option Nat) (i j : Nat)
      (hj : j < names.length),
      name2IdLoop m i names (names.get ⟨j, hj⟩) = some ((i + j) % 256) := by
  induction names with
  | nil => intro _ m i j hj; exact absurd hj (by simp)
  | cons n rest ih =>
    intro hnd m i j hj
    obtain ⟨hn, hrest⟩ := List.nodup_cons.mp hnd
    cases j with
    | zero =>
      have hget : (n :: rest).get ⟨0, hj⟩ = n := rfl
      rw [hget]
      have hstep : name2IdLoop m i (n :: rest) n
          = name2IdLoop (mapInsert m n (i % 256)) (i + 1) rest n := rfl
      rw [hstep, name2IdLoop_not_mem rest n hn]
      simp [mapInsert]
    | succ j2 =>
      have hj2 : j2 < rest.length := by
        simpa using Nat.lt_of_succ_lt_succ hj
      have hget : (n :: rest).get ⟨j2 + 1, hj⟩ = rest.get ⟨j2, hj2⟩ := rfl
      rw [hget]
      have hstep : name2IdLoop m i (n :: rest) (rest.get ⟨j2, hj2⟩)
          = name2IdLoop (mapInsert m n (i % 256)) (i + 1) rest
              (rest.get ⟨j2, hj2⟩) := rfl
      rw [hstep, ih hrest (mapInsert m n (i % 256)) (i + 1) j2 hj2]
      congr 1
      omega

/-- C3: once `NewControlPlane` reaches the outbound-id stage, it fails
with the `too many outbounds` error when more than 255 outbounds are
declared (so no control plane is produced), and with at most 255
distinctly named outbounds a produced control plane maps the outbound
name at declaration index `j` to exactly id `j`, which fits in one
byte. -/
theorem newControlPlane_outbound_cap_and_ids {R : Type} (ext : Externals R)
    (pm : Store) (fuel : Nat)
    (hmem : ext.removeMemlockErr = none)
    (hload : loadLoop ext.loader 0 fuel = some (Except.ok ()))
    (htx : ext.updateTxErr = none) (hrx : ext.updateRxErr = none)
    (hep : ext.updateEpochErr = none)
    (r0 : R) (f : String) (hpr : ext.parseResult = Except.ok (r0, f))
    (r1 : R) (hopt : ApplyRulesOptimizers r0
        [ext.refineOpt, ext.datOpt, ext.mergeOpt, ext.dedupOpt]
      = Except.ok r1)
    (hdl : ext.newFromLinkErr = none) :
    (255 < ext.outboundNames.length →
      NewControlPlane ext pm fuel = some (Except.error "too many outbounds"))
    ∧ (ext.outboundNames.Nodup →
        ∀ cp pm2, NewControlPlane ext pm fuel = some (Except.ok (cp, pm2)) →
          ∀ j (hj : j < ext.outboundNames.length),
            j < 256
              ∧ cp.outboundName2Id (ext.outboundNames.get ⟨j, hj⟩)
                = some j) := by
  constructor
  · intro hlen
    simp [NewControlPlane, hmem, hload, newControlPlaneAfterLoad, htx, hrx,
      hep, hpr, hopt, hdl, hlen]
  · intro hnd cp pm2 h j hj
    obtain ⟨-, -, h3⟩ := newControlPlane_ok_inv ext pm fuel cp pm2 h
    obtain ⟨r0b, fb, -, -, -, hcap, hmap, -, -⟩ :=
      newControlPlaneAfterLoad_ok_inv ext pm cp pm2 h3
    have hj256 : j < 256 := by omega
    refine ⟨hj256, ?_⟩
    rw [hmap, name2IdMap,
      name2IdLoop_get ext.outboundNames hnd (fun _ => none) 0 j hj]
    congr 1
    omega

/-- Witness for C3: 256 declared outbounds make the constructor fail;
with the two declared outbounds of the source, `direct` gets id 0 and
`proxy` gets id 1. -/
theorem newControlPlane_outbound_cap_and_ids_witness :
    NewControlPlane extTooMany (pmEpoch 0) 1
        = some (Except.error "too many outbounds")
      ∧ ((NewControlPlane extAllOk (pmEpoch 0) 1).map
          (fun r => r.toOption.map
            (fun p => (p.1.outboundName2Id "direct",
              p.1.outboundName2Id "proxy"))))
        = some (some (some 0, some 1)) := by
  constructor
  · apply (newControlPlane_outbound_cap_and_ids extTooMany (pmEpoch 0) 1 rfl
      rfl rfl rfl rfl 100 "direct" rfl 110 rfl rfl).1
    have hnames : extTooMany.outboundNames = List.replicate 256 "x" := rfl
    rw [hnames, List.length_replicate]
    omega
  · decide

/-- C4 amended: every successful run of `NewControlPlane` reads the epoch
stored in the parameter store, writes back its value plus one in `uint32`
arithmetic — that is, `(e + 1) % 2 ^ 32` — and records that value as the
control plane's epoch; whenever the stored epoch is below `2 ^ 32 - 1`
this raises the persisted epoch by exactly one, while at `2 ^ 32 - 1` it
wraps to zero. -/
theorem newControlPlane_epoch_modular {R : Type} (ext : Externals R)
    (pm : Store) (fuel : Nat) (e : Nat)
    (he : pm ParamKey.epochKey = some e) :
    ∀ cp pm2, NewControlPlane ext pm fuel = some (Except.ok (cp, pm2)) →
      pm2 ParamKey.epochKey = some ((e + 1) % 2 ^ 32)
        ∧ cp.epoch = (e + 1) % 2 ^ 32
        ∧ (e + 1 < 2 ^ 32 → pm2 ParamKey.epochKey = some (e + 1)) := by
  intro cp pm2 h
  obtain ⟨-, -, h3⟩ := newControlPlane_ok_inv ext pm fuel cp pm2 h
  obtain ⟨r0, f, -, -, -, -, -, hec, hpm⟩ :=
    newControlPlaneAfterLoad_ok_inv ext pm cp pm2 h3
  rw [he] at hec hpm
  simp only [Option.getD_some] at hec hpm
  refine ⟨hpm, hec, ?_⟩
  intro hlt
  rw [hpm, Nat.mod_eq_of_lt hlt]

/-- Witness for the amended C4: a successful construction over a store
holding epoch 6 persists epoch 7 and records 7 as the control plane's
epoch. -/
theorem newControlPlane_epoch_modular_witness :
    ((NewControlPlane extAllOk (pmEpoch 6) 1).map
        (fun r => r.toOption.map
          (fun p => (p.1.epoch, p.2 ParamKey.epochKey))))
      = some (some (7, some 7)) := by
  have hr : NewControlPlane extAllOk (pmEpoch 6) 1
      = some (Except.ok (⟨110, "direct", name2IdMap ["direct", "proxy"], 7⟩,
        storeUpdate (storeUpdate (storeUpdate (pmEpoch 6)
            ParamKey.disableL4Tx DisableL4ChecksumPolicy_SetZero)
          ParamKey.disableL4Rx DisableL4ChecksumPolicy_SetZero)
          ParamKey.epochKey 7)) := rfl
  obtain ⟨h1, h2, -⟩ := newControlPlane_epoch_modular extAllOk (pmEpoch 6) 1 6
    rfl _ _ hr
  have h7 : (6 + 1) % 2 ^ 32 = 7 := by norm_num
  rw [h7] at h1 h2
  simp [hr, Except.toOption, h1, h2]

/-- C4 counterexample: a successful construction over a store whose epoch
is `2 ^ 32 - 1` (the largest `uint32`) persists epoch 0 — not the stored
value plus one — so a construction does not always raise the persisted
epoch by exactly one. -/
theorem newControlPlane_epoch_wraps :
    ((NewControlPlane extAllOk (pmEpoch (2 ^ 32 - 1)) 1).map
        (fun r => r.toOption.map
          (fun p => (p.1.epoch, p.2 ParamKey.epochKey))))
      = some (some (0, some 0))
      ∧ ((2 ^ 32 - 1) + 1) % 2 ^ 32 ≠ (2 ^ 32 - 1) + 1 := by
  constructor
  · decide
  · decide

/-- C5: the code violates the claim at any fully successful `BindLink`.
The teardown list it appends is `[delQdisc, delFilter ingress, delFilter
ingress]`: the closure registered after installing the egress filter
captures `filter` — the ingress filter object — so the installed egress
filter is released by no registered teardown, while the ingress filter
would be deleted twice.  The claim matches the evident intent (the egress
branch even reuses the ingress error message), so this is a slip in the
code. -/
theorem bindLink_egress_teardown_mismatch :
    (BindLink "eth0" bindOkExt).err = none
      ∧ (BindLink "eth0" bindOkExt).installed
        = [NetResource.clsactQdisc, NetResource.ingressFilter,
            NetResource.egressFilter]
      ∧ (BindLink "eth0" bindOkExt).teardowns
        = [NetTeardown.delQdisc,
            NetTeardown.delFilter NetResource.ingressFilter,
            NetTeardown.delFilter NetResource.ingressFilter]
      ∧ NetResource.egressFilter ∈ (BindLink "eth0" bindOkExt).installed
      ∧ NetResource.egressFilter ∉
          ((BindLink "eth0" bindOkExt).teardowns.map releasedBy) := by
  refine ⟨rfl, rfl, rfl, by decide, by decide⟩

theorem computeLinkIpGo_spec : ∀ (addrs : List (Option NetAddr)) (s : BpfIfIp),
    (computeLinkIpGo addrs s).hasIp4
        = (s.hasIp4 || (eligibleAddrs true addrs).head?.isSome)
      ∧ (computeLinkIpGo addrs s).hasIp6
        = (s.hasIp6 || (eligibleAddrs false addrs).head?.isSome)
      ∧ (computeLinkIpGo addrs s).ip4
        = (if s.hasIp4 then s.ip4
          else ((eligibleAddrs true addrs).head?.map
            (fun a => a.as16)).getD s.ip4)
      ∧ (computeLinkIpGo addrs s).ip6
        = (if s.hasIp6 then s.ip6
          else ((eligibleAddrs false addrs).head?.map
            (fun a => a.as16)).getD s.ip6) := by
  intro addrs
  induction addrs with
  | nil =>
    intro s
    simp [computeLinkIpGo, eligibleAddrs]
  | cons oa rest ih =>
    intro s
    cases oa with
    | none =>
      have hstep : computeLinkIpGo (none :: rest) s = computeLinkIpGo rest s := rfl
      have helig : ∀ fam, eligibleAddrs fam (none :: rest) = eligibleAddrs fam rest := by
        intro fam
        simp [eligibleAddrs]
      rw [hstep, helig true, helig false]
      exact ih s
    | some a =>
      cases hu : a.linkLocalUnicast with
      | true =>
        have hstep : computeLinkIpGo (some a :: rest) s = computeLinkIpGo rest s := by
          simp [computeLinkIpGo, hu]
        have helig : ∀ fam,
            eligibleAddrs fam (some a :: rest) = eligibleAddrs fam rest := by
          intro fam
          simp [eligibleAddrs, hu]
        rw [hstep, helig true, helig false]
        exact ih s
      | false =>
      cases hm : a.linkLocalMulticast with
      | true =>
        have hstep : computeLinkIpGo (some a :: rest) s = computeLinkIpGo rest s := by
          simp [computeLinkIpGo, hu, hm]
        have helig : ∀ fam,
            eligibleAddrs fam (some a :: rest) = eligibleAddrs fam rest := by
          intro fam
          simp [eligibleAddrs, hu, hm]
        rw [hstep, helig true, helig false]
        exact ih s
      | false =>
      cases ha : a.is4 with
      | true =>
        have helig4 : eligibleAddrs true (some a :: rest)
            = a :: eligibleAddrs true rest := by
          simp [eligibleAddrs, hu, hm, ha]
        have helig6 : eligibleAddrs false (some a :: rest)
            = eligibleAddrs false rest := by
          simp [eligibleAddrs, hu, hm, ha]
        cases h4 : s.hasIp4 with
        | true =>
          have hstep : computeLinkIpGo (some a :: rest) s = computeLinkIpGo rest s := by
            simp [computeLinkIpGo, hu, hm, ha, h4]
          rw [hstep, helig4, helig6]
          obtain ⟨i1, i2, i3, i4⟩ := ih s
          refine ⟨?_, i2, ?_, i4⟩
          · rw [i1, h4]
            simp
          · rw [i3]
            simp [h4]
        | false =>
          cases h6 : s.hasIp6 with
          | true =>
            have hstep : computeLinkIpGo (some a :: rest) s
                = { s with hasIp4 := true, ip4 := a.as16 } := by
              simp [computeLinkIpGo, hu, hm, ha, h4, h6]
            rw [hstep, helig4, helig6]
            refine ⟨by simp [h4], by simp [h6], by simp [h4], by simp [h6]⟩
          | false =>
            have hstep : computeLinkIpGo (some a :: rest) s
                = computeLinkIpGo rest { s with hasIp4 := true, ip4 := a.as16 } := by
              simp [computeLinkIpGo, hu, hm, ha, h4, h6]
            rw [hstep, helig4, helig6]
            obtain ⟨i1, i2, i3, i4⟩ :=
              ih { s with hasIp4 := true, ip4 := a.as16 }
            refine ⟨?_, ?_, ?_, ?_⟩
            · rw [i1]
              simp
            · rw [i2]
              simp [h6]
            · rw [i3]
              simp [h4]
            · rw [i4]
              simp [h6]
      | false =>
        have helig4 : eligibleAddrs true (some a :: rest)
            = eligibleAddrs true rest := by
          simp [eligibleAddrs, hu, hm, ha]
        have helig6 : eligibleAddrs false (some a :: rest)
            = a :: eligibleAddrs false rest := by
          simp [eligibleAddrs, hu, hm, ha]
        cases h6 : s.hasIp6 with
        | true =>
          have hstep : computeLinkIpGo (some a :: rest) s = computeLinkIpGo rest s := by
            simp [computeLinkIpGo, hu, hm, ha, h6]
          rw [hstep, helig4, helig6]
          obtain ⟨i1, i2, i3, i4⟩ := ih s
          refine ⟨i1, ?_, i3, ?_⟩
          · rw [i2, h6]
            simp
          · rw [i4]
            simp [h6]
        | false =>
          cases h4 : s.hasIp4 with
          | true =>
            have hstep : computeLinkIpGo (some a :: rest) s
                = { s with hasIp6 := true, ip6 := a.as16 } := by
              simp [computeLinkIpGo, hu, hm, ha, h4, h6]
            rw [hstep, helig4, helig6]
            refine ⟨by simp [h4], by simp [h6], by simp [h4], by simp [h6]⟩
          | false =>
            have hstep : computeLinkIpGo (some a :: rest) s
                = computeLinkIpGo rest { s with hasIp6 := true, ip6 := a.as16 } := by
              simp [computeLinkIpGo, hu, hm, ha, h4, h6]
            rw [hstep, helig4, helig6]
            obtain ⟨i1, i2, i3, i4⟩ :=
              ih { s with hasIp6 := true, ip6 := a.as16 }
            refine ⟨?_, ?_, ?_, ?_⟩
            · rw [i1]
              simp [h4]
            · rw [i2]
              simp
            · rw [i3]
              simp [h4]
            · rw [i4]
              simp [h6]

/-- C9: for every interface address list, the record `BindLink` writes
holds at most one IPv4 and at most one IPv6 address — the presence flag of
a family is set exactly when the list has an eligible (parseable,
non-link-local) address of that family, and the stored value is the
16-byte normalized form of the first eligible address of that family in
list order (the zero value when there is none) — and whenever `BindLink`
returns `nil` the record it wrote is exactly this computation over its
address list. -/
theorem bindLink_address_record_spec :
    (∀ addrs : List (Option NetAddr),
      (computeLinkIpGo addrs bpfIfIpZero).hasIp4
          = (eligibleAddrs true addrs).head?.isSome
        ∧ (computeLinkIpGo addrs bpfIfIpZero).hasIp6
          = (eligibleAddrs false addrs).head?.isSome
        ∧ (computeLinkIpGo addrs bpfIfIpZero).ip4
          = ((eligibleAddrs true addrs).head?.map
              (fun a => a.as16)).getD zeros16
        ∧ (computeLinkIpGo addrs bpfIfIpZero).ip6
          = ((eligibleAddrs false addrs).head?.map
              (fun a => a.as16)).getD zeros16)
    ∧ (∀ ifname ext, (BindLink ifname ext).err = none →
        (BindLink ifname ext).written
          = some (computeLinkIpGo ext.addrs bpfIfIpZero)) := by
  constructor
  · intro addrs
    obtain ⟨i1, i2, i3, i4⟩ := computeLinkIpGo_spec addrs bpfIfIpZero
    have hz4 : bpfIfIpZero.hasIp4 = false := rfl
    have hz6 : bpfIfIpZero.hasIp6 = false := rfl
    rw [hz4] at i1 i3
    rw [hz6] at i2 i4
    simp only [Bool.false_or, if_neg Bool.false_ne_true] at i1 i2 i3 i4
    exact ⟨i1, i2, i3, i4⟩
  · intro ifname ext h
    cases hle : ext.linkErr with
    | some e => simp [BindLink, hle] at h
    | none =>
    cases hae : ext.addrsErr with
    | some e => simp [BindLink, hle, hae] at h
    | none =>
    by_cases hlen : ext.addrs.length = 0
    · simp [BindLink, hle, hae, hlen] at h
    · cases hum : ext.updateMapErr with
      | some e => simp [BindLink, hle, hae, hlen, hum] at h
      | none =>
      cases hq : qdiscStep ext with
      | some e => simp [BindLink, hle, hae, hlen, hum, hq] at h
      | none =>
      cases hfi : ext.filterIngressErr with
      | some e => simp [BindLink, hle, hae, hlen, hum, hq, hfi] at h
      | none =>
      cases hfe : ext.filterEgressErr with
      | some e => simp [BindLink, hle, hae, hlen, hum, hq, hfi, hfe] at h
      | none => simp [BindLink, hle, hae, hlen, hum, hq, hfi, hfe]

/-- Witness for C9 at the concrete `BindLink` run of `bindOkExt`: the
written record is the loop's computation, both presence flags are set,
and each slot holds the matching address's 16-byte form. -/
theorem bindLink_address_record_spec_witness :
    (BindLink "eth0" bindOkExt).written
        = some (computeLinkIpGo bindOkExt.addrs bpfIfIpZero)
      ∧ (computeLinkIpGo bindOkExt.addrs bpfIfIpZero).hasIp4 = true
      ∧ (computeLinkIpGo bindOkExt.addrs bpfIfIpZero).hasIp6 = true
      ∧ (computeLinkIpGo bindOkExt.addrs bpfIfIpZero).ip4 = addr4a.as16
      ∧ (computeLinkIpGo bindOkExt.addrs bpfIfIpZero).ip6 = addr6a.as16 :=
  ⟨bindLink_address_record_spec.2 "eth0" bindOkExt rfl,
    by decide, by decide, by decide, by decide⟩

/-- C7: in both accept loops, an accept/read error terminates the loop
(later scripted events are never processed); the error is logged at error
level exactly when its message does not contain the closed-listener text,
and suppressed when it does; connections/packets accepted before the
error are all handled. -/
theorem acceptLoops_closed_listener_handling {C H : Type}
    (parse : List Nat → Option (H × Nat)) :
    (∀ (pre : List C) (m : String) (post : List (AcceptEvent C)),
      tcpLoop (pre.map AcceptEvent.conn ++ AcceptEvent.acceptErr m :: post)
        = ⟨pre, if goContains m closedConnMsg then [] else [m], true⟩)
    ∧ (∀ (pre : List (List Nat)) (m : String) (post : List UdpEvent),
        (udpLoop parse
            (pre.map UdpEvent.pkt ++ UdpEvent.readErr m :: post)).errLogged
            = (if goContains m closedConnMsg then [] else [m])
          ∧ (udpLoop parse
              (pre.map UdpEvent.pkt ++ UdpEvent.readErr m :: post)).stopped
            = true) := by
  constructor
  · intro pre m post
    induction pre with
    | nil => rfl
    | cons c rest ih =>
      simp only [List.map_cons, List.cons_append, tcpLoop, List.append_eq, ih]
  · intro pre m post
    induction pre with
    | nil => exact ⟨rfl, rfl⟩
    | cons d rest ih =>
      cases hp : parse d with
      | none =>
        simpa only [List.map_cons, List.cons_append, udpLoop, hp] using ih
      | some ho =>
        obtain ⟨hh, off⟩ := ho
        simpa only [List.map_cons, List.cons_append, udpLoop, hp] using ih

theorem parseAddrHdr_offset_le (d : List Nat) (h : AddrHdrM) (off : Nat)
    (hp : ParseAddrHdr d = some (h, off)) : off ≤ d.length := by
  cases d with
  | nil => simp [ParseAddrHdr] at hp
  | cons fam rest =>
    simp only [ParseAddrHdr] at hp
    split at hp
    · split at hp
      · simp only [Option.some.injEq, Prod.mk.injEq] at hp
        obtain ⟨-, hoff⟩ := hp
        omega
      · simp at hp
    · split at hp
      · split at hp
        · simp only [Option.some.injEq, Prod.mk.injEq] at hp
          obtain ⟨-, hoff⟩ := hp
          omega
        · simp at hp
      · simp at hp

/-- C8: in the datagram loop, a packet whose header fails to parse is
dropped with the `No AddrPort presented` warning and the loop moves on to
the next packet (the loop never stops because of it), while every packet
that parses is handed to the handler paired with exactly the bytes from
the parsed data offset on; moreover a successful parse never declares an
offset beyond the available bytes. -/
theorem udpLoop_drop_and_payload {H : Type}
    (parse : List Nat → Option (H × Nat)) (pkts : List (List Nat)) :
    ((udpLoop parse (pkts.map UdpEvent.pkt)).handled
        = pkts.filterMap
            (fun d => (parse d).map (fun ho => (ho.1, d.drop ho.2)))
      ∧ (udpLoop parse (pkts.map UdpEvent.pkt)).warnLogged
        = List.replicate (pkts.countP (fun d => (parse d).isNone))
            "No AddrPort presented"
      ∧ (udpLoop parse (pkts.map UdpEvent.pkt)).stopped = false)
    ∧ (∀ d hdr off, ParseAddrHdr d = some (hdr, off) → off ≤ d.length) := by
  refine ⟨?_, fun d hdr off hp => parseAddrHdr_offset_le d hdr off hp⟩
  induction pkts with
  | nil => exact ⟨rfl, rfl, rfl⟩
  | cons d rest ih =>
    obtain ⟨i1, i2, i3⟩ := ih
    cases hp : parse d with
    | none =>
      refine ⟨?_, ?_, ?_⟩
      · simp only [List.map_cons, udpLoop, hp, i1, List.filterMap_cons]
        simp [hp]
      · simp only [List.map_cons, udpLoop, hp, i2, List.countP_cons]
        simp [hp, List.replicate_succ]
      · simpa only [List.map_cons, udpLoop, hp] using i3
    | some ho =>
      obtain ⟨hh, off⟩ := ho
      refine ⟨?_, ?_, ?_⟩
      · simp only [List.map_cons, udpLoop, hp, i1, List.filterMap_cons]
        simp [hp]
      · simp only [List.map_cons, udpLoop, hp, i2, List.countP_cons]
        simp [hp]
      · simpa only [List.map_cons, udpLoop, hp] using i3

/-- Witness for C8 at concrete packets and the header parser: a 9-byte
IPv4 packet is handed on with the two payload bytes after its 7-byte
header, the malformed packet in between is dropped with one warning, and
the loop is still running afterwards. -/
theorem udpLoop_drop_and_payload_witness :
    (udpLoop ParseAddrHdr
        ([[4, 10, 0, 0, 1, 0, 80, 97, 98], [9, 1]].map UdpEvent.pkt)).handled
        = [(⟨4, [10, 0, 0, 1], 80⟩, [97, 98])]
      ∧ (udpLoop ParseAddrHdr
          ([[4, 10, 0, 0, 1, 0, 80, 97, 98], [9, 1]].map UdpEvent.pkt)).warnLogged
        = ["No AddrPort presented"]
      ∧ (udpLoop ParseAddrHdr
          ([[4, 10, 0, 0, 1, 0, 80, 97, 98], [9, 1]].map UdpEvent.pkt)).stopped
        = false
      ∧ (7 : Nat) ≤ 9 := by
  have h := udpLoop_drop_and_payload ParseAddrHdr
    [[4, 10, 0, 0, 1, 0, 80, 97, 98], [9, 1]]
  refine ⟨?_, ?_, h.1.2.2, h.2 [4, 10, 0, 0, 1, 0, 80, 97, 98] ⟨4, [10, 0, 0, 1], 80⟩ 7 (by decide)⟩
  · rw [h.1.1]
    decide
  · rw [h.1.2.1]
    decide

/-- C10: once both listeners are bound and the port write into the
parameter store succeeded, `ListenAndServe` returns `nil` — its result is
`ok` with the two loop outcomes and the port mirrored into the store,
regardless of how either accept loop ends; a loop error appears only in
the logged output, never in the return value. -/
theorem listenAndServe_returns_nil {C H : Type} (ext : ServeExt C H)
    (pm : Store) (port : Nat)
    (h1 : ext.listenTcpErr = none) (h2 : ext.listenUdpErr = none)
    (h3 : ext.updatePortErr = none) :
    ListenAndServe ext pm port
      = Except.ok (tcpLoop ext.tcpEvents, udpLoop ext.parseHdr ext.udpEvents,
          storeUpdate pm ParamKey.tproxyPort (swap16 (port % 2 ^ 16))) := by
  simp [ListenAndServe, h1, h2, h3]

/-- Witness for C10: with both loops ending in genuine errors, a
successfully set-up `ListenAndServe` still returns `ok`, the errors
appearing only in the loops' logs. -/
theorem listenAndServe_returns_nil_witness :
    ListenAndServe
        (⟨none, none, none, [AcceptEvent.acceptErr "boom"],
          [UdpEvent.readErr "crash"], ParseAddrHdr⟩ : ServeExt Nat AddrHdrM)
        (pmEpoch 0) 12345
      = Except.ok (⟨[], ["boom"], true⟩, ⟨[], [], ["crash"], true⟩,
          storeUpdate (pmEpoch 0) ParamKey.tproxyPort
            (swap16 (12345 % 2 ^ 16))) := by
  rw [listenAndServe_returns_nil
    (⟨none, none, none, [AcceptEvent.acceptErr "boom"],
      [UdpEvent.readErr "crash"], ParseAddrHdr⟩ : ServeExt Nat AddrHdrM)
    (pmEpoch 0) 12345 rfl rfl rfl]
  rfl
